import Mathlib

/-!
# Verification of the Autodocx multi-language analysis core

A shallow embedding of `src/app/utils/ast_parser.py` and the constants it
uses from `src/app/config.py`, together with theorems settling the spec's
claims about it.

Embedding conventions:

* Machine-level file observables (byte length, the outcome of `ast.parse`,
  the match lists produced by the `re.findall` calls) are carried in a
  `SourceFile` record: the extractors are deterministic functions of these
  observables, exactly mirroring the branch structure of the Python code.
* Python's `ast.walk` (a breadth-first traversal using a deque) is embedded
  as `astWalk` over an inductive syntax-tree type `PyNode`.
* `list(set(xs))` is embedded as `list_set xs = xs.dedup`: each distinct
  element occurs exactly once; Python's set iteration order is unspecified
  and no property proved here depends on the order chosen.
* The repository walks (`parse_repo_ast`, `parse_repo_ast_structured`)
  are folds over the `rglob` enumeration, embedded as a list of `Entry`
  values in traversal order.  Per-entry filesystem behaviour that the code
  guards with `try`/`except` (`stat` raising, `relative_to` raising) is
  carried as boolean flags on the entry.
-/

namespace Autodocx

/-! ## Configuration (`src/app/config.py`) -/

/-- `MAX_FILE_BYTES = 1 * 1024 * 1024` (config.py line 25, default value). -/
def MAX_FILE_BYTES : Nat := 1 * 1024 * 1024

/-- `DEFAULT_MAX_FILES = 200` (config.py line 28, default value).
This constant is defined by the configuration but is not imported by
`ast_parser.py`. -/
def DEFAULT_MAX_FILES : Nat := 200

/-- `MAX_FILES_LIMIT = 500` (config.py line 29, default value). -/
def MAX_FILES_LIMIT : Nat := 500

/-- `SUPPORTED_CODE_EXTENSIONS` (config.py lines 38-41). -/
def SUPPORTED_CODE_EXTENSIONS : List String :=
  [".py", ".js", ".jsx", ".ts", ".tsx", ".java", ".go", ".rs", ".cpp", ".c", ".cs"]

/-- `LANGUAGE_MAP` (config.py lines 44-56). -/
def LANGUAGE_MAP : List (String × String) :=
  [(".py", "python"), (".js", "javascript"), (".jsx", "javascript"),
   (".ts", "typescript"), (".tsx", "typescript"), (".java", "java"),
   (".go", "go"), (".rs", "rust"), (".cpp", "cpp"), (".c", "c"), (".cs", "csharp")]

/-- `detect_language` (ast_parser.py lines 120-123).  The argument is the
already-lowercased extension `Path(file_path).suffix.lower()`. -/
def detect_language (ext : String) : String :=
  (List.lookup ext LANGUAGE_MAP).getD "unknown"

/-! ## Python syntax trees and `ast.walk`

`parse_python_ast` builds a syntax tree with `ast.parse` and collects node
names with `ast.walk`.  The tree is embedded as `PyNode`; the node kinds the
code inspects (`ast.FunctionDef`, `ast.ClassDef`, `ast.Import`) are explicit,
every other node kind is `other`.  An `importStmt` carries the name
`node.names[0].name` that line 38 of the source extracts. -/

inductive PyKind : Type where
  | functionDef (name : String)
  | classDef (name : String)
  | importStmt (name : String)
  | other
deriving DecidableEq

inductive PyNode : Type where
  | node (kind : PyKind) (children : List PyNode)

/-- `ast.iter_child_nodes`, as used by `ast.walk`. -/
def PyNode.children : PyNode → List PyNode
  | .node _ cs => cs

def PyNode.kind : PyNode → PyKind
  | .node k _ => k

def PyNode.size : PyNode → Nat
  | .node _ cs => 1 + (cs.attach.map (fun c => PyNode.size c.1)).sum
decreasing_by
  have h := List.sizeOf_lt_of_mem c.2
  simp only [PyNode.node.sizeOf_spec]
  omega

def size_node (k : PyKind) (cs : List PyNode) :
    PyNode.size (.node k cs) = 1 + (cs.map PyNode.size).sum := by
  simp [PyNode.size, List.map_attach]

def sizeList (q : List PyNode) : Nat := (q.map PyNode.size).sum

/-- CPython's `ast.walk`: a breadth-first traversal.  `walk` keeps a deque
seeded with the root; it repeatedly pops the front node, appends that node's
children to the back, and yields the popped node. -/
def astWalk : List PyNode → List PyNode
  | [] => []
  | n :: rest => n :: astWalk (rest ++ n.children)
termination_by q => sizeList q
decreasing_by
  simp only [sizeList, List.map_append, List.sum_append, List.map_cons, List.sum_cons]
  cases n with
  | node k cs =>
    have h := size_node k cs
    simp only [PyNode.children]
    rw [h]
    omega

/-- Depth-first pre-order traversal of a tree, used to state what the spec
calls "tree pre-order". -/
def preorder : PyNode → List PyNode
  | .node k cs => .node k cs :: (cs.attach.map (fun c => preorder c.1)).flatten
decreasing_by
  have h := List.sizeOf_lt_of_mem c.2
  simp only [PyNode.node.sizeOf_spec]
  omega

def isFunctionDefName : PyNode → Option String
  | .node (.functionDef nm) _ => some nm
  | _ => none

def isClassDefName : PyNode → Option String
  | .node (.classDef nm) _ => some nm
  | _ => none

def isImportName : PyNode → Option String
  | .node (.importStmt nm) _ => some nm
  | _ => none

/-- `[node.name for node in ast.walk(tree) if isinstance(node, ast.FunctionDef)]`
(ast_parser.py line 36). -/
def pyFunctions (tree : PyNode) : List String := (astWalk [tree]).filterMap isFunctionDefName

/-- ast_parser.py line 37. -/
def pyClasses (tree : PyNode) : List String := (astWalk [tree]).filterMap isClassDefName

/-- `[node.names[0].name for node in ast.walk(tree) if isinstance(node, ast.Import)]`
(ast_parser.py line 38). -/
def pyImports (tree : PyNode) : List String := (astWalk [tree]).filterMap isImportName

/-- The same name lists read off in depth-first pre-order: what the spec's
"tree pre-order" sentence describes. -/
def preorderFunctions (tree : PyNode) : List String := (preorder tree).filterMap isFunctionDefName

def preorderClasses (tree : PyNode) : List String := (preorder tree).filterMap isClassDefName

def preorderImports (tree : PyNode) : List String := (preorder tree).filterMap isImportName

/-! ## Per-file observables and extractor results -/

/-- The observables of one source file that the extractors consume.
`readError` models an exception raised by `open`/`read` (caught by each
extractor's `except` clause); `byteLen` is `len(data)`; `pyParse` is the
outcome of `ast.parse` on the decoded source; the remaining fields are the
results of the individual `re.findall` calls over the decoded source, one
field per pattern, in source order:

* `jsFunctionMatches1` — `function\s+(\w+)\s*\(` (line 54)
* `jsFunctionMatches2` — `const\s+(\w+)\s*=\s*(?:\([^)]*\)\s*=>|function)` (line 55)
* `jsFunctionMatches3` — `(\w+)\s*:\s*(?:\([^)]*\)\s*=>|function)` (line 56)
* `jsClassMatches` — `(?:export\s+)?class\s+(\w+)` (line 61)
* `jsImportMatches1` — ES-module import targets (line 66)
* `jsImportMatches2` — `require(...)` targets (line 67)
* `javaClassMatches` — line 99, `javaFunctionMatches` — line 103,
  `javaImportMatches` — line 107. -/
structure SourceFile where
  byteLen : Nat
  readError : Option String
  pyParse : Except String PyNode
  jsFunctionMatches1 : List String
  jsFunctionMatches2 : List String
  jsFunctionMatches3 : List String
  jsClassMatches : List String
  jsImportMatches1 : List String
  jsImportMatches2 : List String
  javaClassMatches : List String
  javaFunctionMatches : List String
  javaImportMatches : List String

/-- The dict returned by an extractor.  Every extractor returns `language`
and `file` plus either the three declaration lists, or a `skipped` entry, or
an `error` entry; a `none` field models an absent dict key. -/
structure ParseResult where
  language : String
  file : String
  functions : Option (List String)
  classes : Option (List String)
  imports : Option (List String)
  skipped : Option String
  error : Option String
deriving DecidableEq

/-- `list(set(xs))` (ast_parser.py lines 57, 62, 68, 100, 104, 108). -/
def list_set (xs : List String) : List String := xs.dedup

/-- `parse_python_ast` (ast_parser.py lines 27-41). -/
def parse_python_ast (file_path : String) (src : SourceFile) : ParseResult :=
  match src.readError with
  | some e =>
    { language := "python", file := file_path, functions := none, classes := none,
      imports := none, skipped := none, error := some e }
  | none =>
    if MAX_FILE_BYTES < src.byteLen then
      { language := "python", file := file_path, functions := none, classes := none,
        imports := none, skipped := some "file too large (>1MB)", error := none }
    else
      match src.pyParse with
      | .error e =>
        { language := "python", file := file_path, functions := none, classes := none,
          imports := none, skipped := none, error := some e }
      | .ok tree =>
        { language := "python", file := file_path, functions := some (pyFunctions tree),
          classes := some (pyClasses tree), imports := some (pyImports tree),
          skipped := none, error := none }

/-- `parse_javascript_ast` (ast_parser.py lines 43-78). -/
def parse_javascript_ast (file_path : String) (src : SourceFile) : ParseResult :=
  match src.readError with
  | some e =>
    { language := "javascript", file := file_path, functions := none, classes := none,
      imports := none, skipped := none, error := some e }
  | none =>
    if MAX_FILE_BYTES < src.byteLen then
      { language := "javascript", file := file_path, functions := none, classes := none,
        imports := none, skipped := some "file too large (>1MB)", error := none }
    else
      { language := "javascript", file := file_path,
        functions := some (list_set
          (src.jsFunctionMatches1 ++ src.jsFunctionMatches2 ++ src.jsFunctionMatches3)),
        classes := some (list_set src.jsClassMatches),
        imports := some (list_set (src.jsImportMatches1 ++ src.jsImportMatches2)),
        skipped := none, error := none }

/-- `parse_typescript_ast` (ast_parser.py lines 81-86): reuse the JavaScript
result and relabel the language tag. -/
def parse_typescript_ast (file_path : String) (src : SourceFile) : ParseResult :=
  let result := parse_javascript_ast file_path src
  { result with language := "typescript" }

/-- `parse_java_ast` (ast_parser.py lines 89-118). -/
def parse_java_ast (file_path : String) (src : SourceFile) : ParseResult :=
  match src.readError with
  | some e =>
    { language := "java", file := file_path, functions := none, classes := none,
      imports := none, skipped := none, error := some e }
  | none =>
    if MAX_FILE_BYTES < src.byteLen then
      { language := "java", file := file_path, functions := none, classes := none,
        imports := none, skipped := some "file too large (>1MB)", error := none }
    else
      { language := "java", file := file_path,
        functions := some (list_set src.javaFunctionMatches),
        classes := some (list_set src.javaClassMatches),
        imports := some (list_set src.javaImportMatches),
        skipped := none, error := none }

/-- The `skipped` record every extractor returns for an oversized file. -/
def tooLargeRecord (language file_path : String) : ParseResult :=
  { language := language, file := file_path, functions := none, classes := none,
    imports := none, skipped := some "file too large (>1MB)", error := none }

/-! ## File records and the summarizer -/

/-- The per-file dict built by `_summarize_file` (ast_parser.py lines
126-137).  In that dict every key is always present; `error` and `skipped`
hold `None` when the extractor produced declarations. -/
structure FileRecord where
  path : String
  language : String
  functions : List String
  classes : List String
  imports : List String
  error : Option String
  skipped : Option String
  bytes : Nat
deriving DecidableEq

/-- `_summarize_file` (ast_parser.py lines 126-137).  The source computes
`rel_path` by relativizing `parsed["file"]` to the repository root; the walk
embedding passes the relativization result `relPath` in, and the case where
`relative_to` raises is handled at the walker (see `structuredStep`), since
the walker's own `relative_to` call at line 221 raises first on the same
path.  The guard `if parsed.get("file")` (truthiness of the echoed path) is
kept. -/
def _summarize_file (parsed : ParseResult) (relPath : String) (file_size : Nat) : FileRecord :=
  { path := if parsed.file ≠ "" then relPath else "",
    language := parsed.language,
    functions := parsed.functions.getD [],
    classes := parsed.classes.getD [],
    imports := parsed.imports.getD [],
    error := parsed.error,
    skipped := parsed.skipped,
    bytes := file_size }

/-! ## The repository walks -/

/-- One entry of the `repo_path.rglob("*")` enumeration, in traversal order.
`path` is `str(file_path)` (what the extractors receive and echo), `relPath`
is `str(file_path.relative_to(repo_path))` when that call succeeds, `ext` is
`file_path.suffix.lower()`, `size` is `file_path.stat().st_size` when `stat`
succeeds.  `statRaises` and `relRaises` model `stat` respectively
`relative_to` raising, the situations the walkers guard with
`try`/`except`.  `src` carries the content observables for the
extractors. -/
structure Entry where
  path : String
  relPath : String
  ext : String
  isFile : Bool
  size : Nat
  statRaises : Bool
  relRaises : Bool
  src : SourceFile

/-- The filter on line 148 / line 218:
`file_path.is_file() and file_path.suffix.lower() in SUPPORTED_CODE_EXTENSIONS`. -/
def eligible (e : Entry) : Bool :=
  e.isFile && SUPPORTED_CODE_EXTENSIONS.contains e.ext

/-- The `if lang == ... elif ... else: continue` dispatch shared by both
walkers (lines 152-161 and 226-235). -/
def dispatchExtractor (lang : String) (file_path : String) (src : SourceFile) : Option ParseResult :=
  if lang = "python" then some (parse_python_ast file_path src)
  else if lang = "javascript" then some (parse_javascript_ast file_path src)
  else if lang = "typescript" then some (parse_typescript_ast file_path src)
  else if lang = "java" then some (parse_java_ast file_path src)
  else none

/-- The display string the flat walker builds for one file (lines 174-191).
`rel_display` is the already-rendered relative path (or `"Unknown File"`).
The source tests dict-key presence (`"skipped" in parsed`), which is
`Option.isSome` here; the declaration lines join the first 10 names and are
appended only when the joined string is non-empty. -/
def flatSummaryString (rel_display : String) (parsed : ParseResult) : String :=
  let base := rel_display ++ " | Language: " ++ parsed.language
  match parsed.skipped with
  | some s => base ++ "\n  Skipped: " ++ s
  | none =>
    match parsed.error with
    | some e => base ++ "\n  Error: " ++ e
    | none =>
      let funcs := String.intercalate ", " ((parsed.functions.getD []).take 10)
      let classesStr := String.intercalate ", " ((parsed.classes.getD []).take 10)
      let importsStr := String.intercalate ", " ((parsed.imports.getD []).take 10)
      let line1 := if funcs ≠ "" then "\n  Functions: " ++ funcs else ""
      let line2 := if classesStr ≠ "" then "\n  Classes: " ++ classesStr else ""
      let line3 := if importsStr ≠ "" then "\n  Imports: " ++ importsStr else ""
      base ++ line1 ++ line2 ++ line3

/-- One iteration of the flat walker's loop body (lines 144-197).  The
`try` block around the string building catches the `relative_to` failure and
`continue`s; `relative_to` is only reached when `parsed_file` is truthy. -/
def flatStep (acc : List String) (e : Entry) : List String :=
  if eligible e then
    match dispatchExtractor (detect_language e.ext) e.path e.src with
    | none => acc
    | some parsed =>
      if parsed.file ≠ "" && e.relRaises then acc
      else
        let rel_display := if parsed.file ≠ "" then e.relPath else "Unknown File"
        acc ++ [flatSummaryString rel_display parsed]
  else acc

/-- The default of the `max_files` parameter of `parse_repo_ast`
(ast_parser.py line 138: `max_files: int = 300`). -/
def parse_repo_ast_default_max_files : Nat := 300

/-- The default of the `max_files` parameter of `parse_repo_ast_structured`
(ast_parser.py line 203: `max_files: int = 300`). -/
def parse_repo_ast_structured_default_max_files : Nat := 300

/-- `parse_repo_ast` (ast_parser.py lines 138-200).  `enumerate` counts
every enumerated entry (files, directories, unsupported extensions alike)
and the loop breaks as soon as `i >= max_files`, so exactly the first
`max_files` entries are processed. -/
def parse_repo_ast (entries : List Entry) (max_files : Nat) : List String :=
  (entries.take max_files).foldl flatStep []

/-- The walker's running state in `parse_repo_ast_structured`
(ast_parser.py lines 206-211). -/
structure WalkState where
  files : List FileRecord
  scanned : Nat
  skipped : Nat
  errors : Nat
  by_language : List (String × Nat)
  largest_files : List (String × Nat)
deriving DecidableEq

def initWalkState : WalkState :=
  { files := [], scanned := 0, skipped := 0, errors := 0, by_language := [], largest_files := [] }

/-- Python truthiness of the `skipped` / `error` values, as used by the
classification on lines 243-250 (`if summary.get("skipped"): ... elif
summary.get("error"):`): `None` and the empty string are falsy. -/
def isTruthy : Option String → Bool
  | none => false
  | some s => s != ""

/-- The `by_language[lang] = by_language.get(lang, 0) + 1` update on a
dict in insertion order (lines 252-253). -/
def bumpLanguage (m : List (String × Nat)) (lang : String) : List (String × Nat) :=
  match m with
  | [] => [(lang, 1)]
  | (k, v) :: rest =>
    if k = lang then (k, v + 1) :: rest else (k, v) :: bumpLanguage rest lang

/-- One iteration of the structured walker's loop body (lines 214-257).
The `try` covers the whole body: if `stat` raises, or `relative_to` raises
while the `largest_files` pair is being built (line 221 — the same
`relative_to` that `_summarize_file` would call later), the `except` branch
increments `errors` and `continue`s, producing no record and no candidate
pair.  The `largest_files` pair is appended before language dispatch, so an
eligible file whose language has no extractor still enters the pool. -/
def structuredStep (s : WalkState) (e : Entry) : WalkState :=
  if eligible e then
    if e.statRaises || e.relRaises then
      { s with errors := s.errors + 1 }
    else
      let s1 := { s with largest_files := s.largest_files ++ [(e.relPath, e.size)] }
      match dispatchExtractor (detect_language e.ext) e.path e.src with
      | none => s1
      | some parsed =>
        let summary := _summarize_file parsed e.relPath e.size
        let s2 := { s1 with files := s1.files ++ [summary] }
        let s3 :=
          if isTruthy summary.skipped then { s2 with skipped := s2.skipped + 1 }
          else if isTruthy summary.error then { s2 with errors := s2.errors + 1 }
          else { s2 with scanned := s2.scanned + 1 }
        { s3 with by_language := bumpLanguage s3.by_language summary.language }
  else s

/-- Stable insertion into a list sorted by byte size descending: the new
element goes after every earlier element of greater-or-equal size. -/
def insertDesc (x : String × Nat) : List (String × Nat) → List (String × Nat)
  | [] => [x]
  | y :: ys => if x.2 ≥ y.2 then x :: y :: ys else y :: insertDesc x ys

/-- `sorted(largest_files, key=lambda t: t[1], reverse=True)` (line 259).
Python's sort is stable and `reverse=True` keeps equal elements in their
original order, so it is the (unique) stable descending sort by size,
embedded as a stable insertion sort. -/
def sortByBytesDesc : List (String × Nat) → List (String × Nat)
  | [] => []
  | x :: xs => insertDesc x (sortByBytesDesc xs)

/-- The `stats` dict of the structured result (lines 264-271). -/
structure RepoStats where
  total_considered : Nat
  scanned : Nat
  skipped : Nat
  errors : Nat
  by_language : List (String × Nat)
  largest_files : List (String × Nat)
deriving DecidableEq

/-- The structured result (lines 261-272).  The `repo_path` echo field is
omitted: the embedding identifies a walk by its entry list. -/
structure AnalysisResult where
  files : List FileRecord
  stats : RepoStats
deriving DecidableEq

/-- `parse_repo_ast_structured` (ast_parser.py lines 203-275). -/
def parse_repo_ast_structured (entries : List Entry) (max_files : Nat) : AnalysisResult :=
  let final := (entries.take max_files).foldl structuredStep initWalkState
  { files := final.files,
    stats :=
      { total_considered := final.files.length,
        scanned := final.scanned,
        skipped := final.skipped,
        errors := final.errors,
        by_language := final.by_language,
        largest_files := (sortByBytesDesc final.largest_files).take 5 } }

/-! ## Spec-side projections of one walk

These definitions re-describe, entry by entry, what one loop iteration
contributes; the fold lemmas below prove the walkers equal to them. -/

/-- An eligible entry whose per-file processing step raises. -/
def entryRaises (e : Entry) : Bool := e.statRaises || e.relRaises

/-- How many considered entries take the `except` branch of the structured
walker. -/
def raisedCount (es : List Entry) : Nat :=
  (es.filter (fun e => eligible e && entryRaises e)).length

/-- The `FileRecord` (if any) one entry contributes to the structured walk. -/
def entryRecord (e : Entry) : Option FileRecord :=
  if eligible e && !entryRaises e then
    (dispatchExtractor (detect_language e.ext) e.path e.src).map
      (fun parsed => _summarize_file parsed e.relPath e.size)
  else none

/-- The record sequence of a walk over `es`. -/
def recordsOf (es : List Entry) : List FileRecord := es.filterMap entryRecord

/-- The `largest_files` candidate pool: one `(relative path, size)` pair per
eligible entry whose `stat` and `relative_to` succeed — including entries
whose language has no extractor and thus produce no record. -/
def poolOf (es : List Entry) : List (String × Nat) :=
  (es.filter (fun e => eligible e && !entryRaises e)).map (fun e => (e.relPath, e.size))

/-- The display string (if any) one entry contributes to the flat walk. -/
def entryString (e : Entry) : Option String :=
  if eligible e then
    match dispatchExtractor (detect_language e.ext) e.path e.src with
    | none => none
    | some parsed =>
      if parsed.file ≠ "" && e.relRaises then none
      else some (flatSummaryString
        (if parsed.file ≠ "" then e.relPath else "Unknown File") parsed)
  else none

/-- The string sequence of a flat walk over `es`. -/
def stringsOf (es : List Entry) : List String := es.filterMap entryString

/-- Rendering a structured `FileRecord` as the flat walker's display string:
the projection under which the flat walk is a rendering of the structured
walk. -/
def renderRecord (r : FileRecord) : String :=
  let base := (if r.path = "" then "Unknown File" else r.path) ++ " | Language: " ++ r.language
  match r.skipped with
  | some s => base ++ "\n  Skipped: " ++ s
  | none =>
    match r.error with
    | some e => base ++ "\n  Error: " ++ e
    | none =>
      let funcs := String.intercalate ", " (r.functions.take 10)
      let classesStr := String.intercalate ", " (r.classes.take 10)
      let importsStr := String.intercalate ", " (r.imports.take 10)
      let line1 := if funcs ≠ "" then "\n  Functions: " ++ funcs else ""
      let line2 := if classesStr ≠ "" then "\n  Classes: " ++ classesStr else ""
      let line3 := if importsStr ≠ "" then "\n  Imports: " ++ importsStr else ""
      base ++ line1 ++ line2 ++ line3

/-- The three mutually exclusive shapes an extractor result can take:
declarations present, or `skipped` set, or `error` set. -/
def GoodShape (p : ParseResult) : Prop :=
  (p.functions.isSome ∧ p.classes.isSome ∧ p.imports.isSome ∧ p.skipped = none ∧ p.error = none)
  ∨ (p.functions = none ∧ p.classes = none ∧ p.imports = none ∧ p.skipped.isSome ∧ p.error = none)
  ∨ (p.functions = none ∧ p.classes = none ∧ p.imports = none ∧ p.skipped = none ∧ p.error.isSome)

/-! ## Concrete walks used as witnesses and counterexamples -/

/-- A trivial content observable: empty readable file whose Python parse
fails (as the empty concrete stand-in; its fields are only read on the
paths a given theorem exercises). -/
def emptySource : SourceFile :=
  { byteLen := 0, readError := none, pyParse := .error "boom",
    jsFunctionMatches1 := [], jsFunctionMatches2 := [], jsFunctionMatches3 := [],
    jsClassMatches := [], jsImportMatches1 := [], jsImportMatches2 := [],
    javaClassMatches := [], javaFunctionMatches := [], javaImportMatches := [] }

/-- A readable file one byte over the 1 MiB cap. -/
def bigSource : SourceFile :=
  { emptySource with byteLen := MAX_FILE_BYTES + 1 }

/-- Content in which the same names are matched twice by the patterns. -/
def dupSource : SourceFile :=
  { emptySource with
    jsFunctionMatches1 := ["foo", "foo"], jsClassMatches := ["C", "C"],
    jsImportMatches1 := ["m", "m"], javaClassMatches := ["K", "K"],
    javaFunctionMatches := ["run", "run"], javaImportMatches := ["p.q", "p.q"] }

/-- A small empty JavaScript file that scans successfully. -/
def jsEntry : Entry :=
  { path := "/repo/a.js", relPath := "a.js", ext := ".js", isFile := true,
    size := 5, statRaises := false, relRaises := false, src := emptySource }

/-- A Go file: supported extension, but no extractor for its language. -/
def goEntry : Entry :=
  { path := "/repo/main.go", relPath := "main.go", ext := ".go", isFile := true,
    size := 7, statRaises := false, relRaises := false, src := emptySource }

/-- A Python file whose `stat` call raises during the structured walk. -/
def statFailEntry : Entry :=
  { path := "/repo/a.py", relPath := "a.py", ext := ".py", isFile := true,
    size := 10, statRaises := true, relRaises := false, src := emptySource }

/-- An oversized Java file: yields a `skipped` record. -/
def bigJavaEntry : Entry :=
  { path := "/repo/Big.java", relPath := "Big.java", ext := ".java", isFile := true,
    size := MAX_FILE_BYTES + 1, statRaises := false, relRaises := false, src := bigSource }

/-- Two equal-sized JavaScript files, for the stable-tie-break witness. -/
def tieEntryA : Entry :=
  { path := "/repo/a.js", relPath := "a.js", ext := ".js", isFile := true,
    size := 7, statRaises := false, relRaises := false, src := emptySource }

def tieEntryB : Entry :=
  { path := "/repo/b.js", relPath := "b.js", ext := ".js", isFile := true,
    size := 7, statRaises := false, relRaises := false, src := emptySource }

/-- `def outer():` containing `def inner():`, followed by `def later():` —
breadth-first and pre-order traversals list its functions differently. -/
def demoTree : PyNode :=
  .node .other
    [.node (.functionDef "outer") [.node (.functionDef "inner") []],
     .node (.functionDef "later") []]

/-- A module defining `foo` twice: once at top level, once nested. -/
def demoDupTree : PyNode :=
  .node .other
    [.node (.functionDef "foo") [],
     .node (.classDef "Bar") [.node (.functionDef "foo") []]]

/-- The `FileRecord` the structured walk produces for `bigJavaEntry`. -/
def bigJavaRecord : FileRecord :=
  { path := "Big.java", language := "java", functions := [], classes := [],
    imports := [], error := none, skipped := some "file too large (>1MB)",
    bytes := MAX_FILE_BYTES + 1 }

/-- The `FileRecord` the structured walk produces for `jsEntry`. -/
def jsRecord : FileRecord :=
  { path := "a.js", language := "javascript", functions := [], classes := [],
    imports := [], error := none, skipped := none, bytes := 5 }

/-! ## Helper lemmas: breadth-first walk vs pre-order -/

theorem preorder_eq (k : PyKind) (cs : List PyNode) :
    preorder (.node k cs) = .node k cs :: (cs.map preorder).flatten := by
  rw [preorder]
  simp [List.map_attach]

theorem astWalk_nil : astWalk [] = [] := by
  simp [astWalk]

theorem astWalk_cons (n : PyNode) (rest : List PyNode) :
    astWalk (n :: rest) = n :: astWalk (rest ++ n.children) := by
  rw [astWalk]

/-- Generalized round lemma: walking `q ++ r` first yields `q`, then walks
`r` followed by all children of `q`. -/
theorem astWalk_round_aux (q : List PyNode) :
    ∀ r : List PyNode, astWalk (q ++ r) = q ++ astWalk (r ++ q.flatMap PyNode.children) := by
  induction q with
  | nil => intro r; simp
  | cons x q' ih =>
    intro r
    rw [List.cons_append, astWalk_cons, List.append_assoc, ih (r ++ x.children)]
    simp [List.append_assoc]

/-- The breadth-first walk lists the whole queue as one level, then walks
the queue of all their children: level order. -/
theorem astWalk_round (q : List PyNode) :
    astWalk q = q ++ astWalk (q.flatMap PyNode.children) := by
  have h := astWalk_round_aux q []
  simpa using h

/-- The breadth-first walk of a queue is a permutation of the concatenated
pre-order traversals: it visits exactly the tree's nodes, in a different
order. -/
theorem astWalk_perm (q : List PyNode) :
    List.Perm (astWalk q) (q.flatMap preorder) := by
  induction q using astWalk.induct with
  | case1 => simp [astWalk_nil]
  | case2 n rest ih =>
    rw [astWalk_cons]
    cases n with
    | node k cs =>
      simp only [PyNode.children] at ih ⊢
      rw [List.flatMap_cons, preorder_eq]
      have hflat : (cs.map preorder).flatten = cs.flatMap preorder := by
        simp [List.flatMap_def]
      rw [hflat]
      refine List.Perm.trans (List.Perm.cons _ ih) ?_
      rw [List.flatMap_append]
      exact List.Perm.cons _ (List.perm_append_comm)

/-- Specialization to a single tree, as `ast.walk` is called on line 35. -/
theorem astWalk_tree_perm (t : PyNode) : List.Perm (astWalk [t]) (preorder t) := by
  have h := astWalk_perm [t]
  simpa using h

theorem pyFunctions_perm (t : PyNode) :
    List.Perm (pyFunctions t) (preorderFunctions t) :=
  (astWalk_tree_perm t).filterMap isFunctionDefName

theorem pyClasses_perm (t : PyNode) :
    List.Perm (pyClasses t) (preorderClasses t) :=
  (astWalk_tree_perm t).filterMap isClassDefName

theorem pyImports_perm (t : PyNode) :
    List.Perm (pyImports t) (preorderImports t) :=
  (astWalk_tree_perm t).filterMap isImportName

/-! ## Helper lemmas: extractor result shapes -/

theorem parse_python_ast_shape (f : String) (src : SourceFile) :
    GoodShape (parse_python_ast f src) ∧ (parse_python_ast f src).file = f ∧
      (parse_python_ast f src).language = "python" := by
  unfold GoodShape parse_python_ast
  cases src.readError with
  | some e => simp
  | none =>
    by_cases h : MAX_FILE_BYTES < src.byteLen
    · simp [h]
    · cases src.pyParse with
      | error e => simp [h]
      | ok tree => simp [h]

theorem parse_javascript_ast_shape (f : String) (src : SourceFile) :
    GoodShape (parse_javascript_ast f src) ∧ (parse_javascript_ast f src).file = f ∧
      (parse_javascript_ast f src).language = "javascript" := by
  unfold GoodShape parse_javascript_ast
  cases src.readError with
  | some e => simp
  | none =>
    by_cases h : MAX_FILE_BYTES < src.byteLen
    · simp [h]
    · simp [h]

theorem parse_typescript_ast_shape (f : String) (src : SourceFile) :
    GoodShape (parse_typescript_ast f src) ∧ (parse_typescript_ast f src).file = f ∧
      (parse_typescript_ast f src).language = "typescript" := by
  obtain ⟨hs, hf, _⟩ := parse_javascript_ast_shape f src
  unfold parse_typescript_ast
  unfold GoodShape at hs ⊢
  refine ⟨?_, hf, rfl⟩
  simpa using hs

theorem parse_java_ast_shape (f : String) (src : SourceFile) :
    GoodShape (parse_java_ast f src) ∧ (parse_java_ast f src).file = f ∧
      (parse_java_ast f src).language = "java" := by
  unfold GoodShape parse_java_ast
  cases src.readError with
  | some e => simp
  | none =>
    by_cases h : MAX_FILE_BYTES < src.byteLen
    · simp [h]
    · simp [h]

/-- Every dispatched extractor result has one of the three shapes, echoes
the input path, and carries the tag of one of the four extractor
languages. -/
theorem dispatchExtractor_spec (lang f : String) (src : SourceFile) (p : ParseResult)
    (h : dispatchExtractor lang f src = some p) :
    GoodShape p ∧ p.file = f ∧
      (p.language = "python" ∨ p.language = "javascript" ∨
        p.language = "typescript" ∨ p.language = "java") := by
  unfold dispatchExtractor at h
  split_ifs at h <;> injection h with h <;> subst h
  · obtain ⟨a, b, c⟩ := parse_python_ast_shape f src
    exact ⟨a, b, Or.inl c⟩
  · obtain ⟨a, b, c⟩ := parse_javascript_ast_shape f src
    exact ⟨a, b, Or.inr (Or.inl c)⟩
  · obtain ⟨a, b, c⟩ := parse_typescript_ast_shape f src
    exact ⟨a, b, Or.inr (Or.inr (Or.inl c))⟩
  · obtain ⟨a, b, c⟩ := parse_java_ast_shape f src
    exact ⟨a, b, Or.inr (Or.inr (Or.inr c))⟩

/-! ## Helper lemmas: the walk folds -/

theorem structuredStep_spec (s : WalkState) (e : Entry) :
    (structuredStep s e).files = s.files ++ (entryRecord e).toList ∧
    (structuredStep s e).largest_files = s.largest_files ++
      (if eligible e && !entryRaises e then [(e.relPath, e.size)] else []) ∧
    (structuredStep s e).scanned + (structuredStep s e).skipped + (structuredStep s e).errors
      = s.scanned + s.skipped + s.errors + (entryRecord e).toList.length +
        (if eligible e && entryRaises e then 1 else 0) := by
  unfold structuredStep entryRecord entryRaises
  cases h1 : eligible e
  · simp
  · cases h2 : e.statRaises || e.relRaises
    · simp only [h2, Bool.not_false, Bool.and_true, if_true, Bool.true_and, if_false]
      cases hd : dispatchExtractor (detect_language e.ext) e.path e.src with
      | none => simp
      | some parsed =>
        by_cases h3 : isTruthy (_summarize_file parsed e.relPath e.size).skipped
        · simp [h3]
          omega
        · by_cases h4 : isTruthy (_summarize_file parsed e.relPath e.size).error
          · simp [h3, h4]
            omega
          · simp [h3, h4]
            omega
    · simp [h2]
      omega

theorem structured_fold (es : List Entry) (s : WalkState) :
    (es.foldl structuredStep s).files = s.files ++ recordsOf es ∧
    (es.foldl structuredStep s).largest_files = s.largest_files ++ poolOf es ∧
    (es.foldl structuredStep s).scanned + (es.foldl structuredStep s).skipped +
        (es.foldl structuredStep s).errors
      = s.scanned + s.skipped + s.errors + (recordsOf es).length + raisedCount es := by
  induction es generalizing s with
  | nil => simp [recordsOf, poolOf, raisedCount]
  | cons e es ih =>
    obtain ⟨hf, hl, hc⟩ := structuredStep_spec s e
    obtain ⟨ihf, ihl, ihc⟩ := ih (structuredStep s e)
    have hr : recordsOf (e :: es) = (entryRecord e).toList ++ recordsOf es := by
      unfold recordsOf
      cases h : entryRecord e <;> simp [List.filterMap_cons, h]
    have hp : poolOf (e :: es) = (if eligible e && !entryRaises e
        then [(e.relPath, e.size)] else []) ++ poolOf es := by
      unfold poolOf
      cases h : eligible e && !entryRaises e <;> simp [List.filter_cons, h]
    have hrc : raisedCount (e :: es) = (if eligible e && entryRaises e then 1 else 0) +
        raisedCount es := by
      unfold raisedCount
      cases h : eligible e && entryRaises e
      · simp [List.filter_cons, h]
      · simp [List.filter_cons, h]
        omega
    refine ⟨?_, ?_, ?_⟩
    · rw [List.foldl_cons, ihf, hf, hr, List.append_assoc]
    · rw [List.foldl_cons, ihl, hl, hp, List.append_assoc]
    · rw [List.foldl_cons, ihc, hc, hr, hrc]
      simp
      omega

theorem flatStep_spec (acc : List String) (e : Entry) :
    flatStep acc e = acc ++ (entryString e).toList := by
  unfold flatStep entryString
  cases h1 : eligible e
  · simp
  · cases hd : dispatchExtractor (detect_language e.ext) e.path e.src with
    | none => simp
    | some parsed =>
      by_cases h2 : ¬parsed.file = "" ∧ e.relRaises = true
      · simp [h2]
      · simp [h2]

theorem flat_fold (es : List Entry) (acc : List String) :
    es.foldl flatStep acc = acc ++ stringsOf es := by
  induction es generalizing acc with
  | nil => simp [stringsOf]
  | cons e es ih =>
    have hs : stringsOf (e :: es) = (entryString e).toList ++ stringsOf es := by
      unfold stringsOf
      cases h : entryString e <;> simp [List.filterMap_cons, h]
    rw [List.foldl_cons, ih, flatStep_spec, hs, List.append_assoc]

/-! ## Helper lemmas: the stable descending sort -/

theorem insertDesc_perm (x : String × Nat) (l : List (String × Nat)) :
    List.Perm (insertDesc x l) (x :: l) := by
  induction l with
  | nil => simp [insertDesc]
  | cons y ys ih =>
    unfold insertDesc
    by_cases h : x.2 ≥ y.2
    · simp [h]
    · simp only [h, if_false]
      exact List.Perm.trans (List.Perm.cons y ih) (List.Perm.swap x y ys)

theorem sortByBytesDesc_perm (l : List (String × Nat)) :
    List.Perm (sortByBytesDesc l) l := by
  induction l with
  | nil => simp [sortByBytesDesc]
  | cons x xs ih =>
    unfold sortByBytesDesc
    exact List.Perm.trans (insertDesc_perm x (sortByBytesDesc xs)) (List.Perm.cons x ih)

/-- `insertDesc` places `x` after a (possibly empty) prefix of strictly
larger elements and before the rest of the list. -/
theorem insertDesc_decomp (x : String × Nat) (l : List (String × Nat)) :
    ∃ l₁ l₂, l = l₁ ++ l₂ ∧ insertDesc x l = l₁ ++ x :: l₂ ∧ ∀ y ∈ l₁, x.2 < y.2 := by
  induction l with
  | nil => exact ⟨[], [], by simp [insertDesc]⟩
  | cons y ys ih =>
    unfold insertDesc
    by_cases h : x.2 ≥ y.2
    · exact ⟨[], y :: ys, by simp [h]⟩
    · obtain ⟨l₁, l₂, h1, h2, h3⟩ := ih
      refine ⟨y :: l₁, l₂, by simp [h1], by simp [h, h2], ?_⟩
      intro z hz
      rcases List.mem_cons.mp hz with hz | hz
      · subst hz; omega
      · exact h3 z hz

theorem sublist_insertDesc (x : String × Nat) (l : List (String × Nat)) :
    List.Sublist l (insertDesc x l) := by
  obtain ⟨l₁, l₂, h1, h2, _⟩ := insertDesc_decomp x l
  rw [h2, h1]
  exact (List.Sublist.refl l₁).append ((List.Sublist.refl l₂).cons x)

theorem insertDesc_pairwise (x : String × Nat) (l : List (String × Nat))
    (h : List.Pairwise (fun a b : String × Nat => b.2 ≤ a.2) l) :
    List.Pairwise (fun a b : String × Nat => b.2 ≤ a.2) (insertDesc x l) := by
  induction l with
  | nil => simp [insertDesc]
  | cons y ys ih =>
    unfold insertDesc
    rcases List.pairwise_cons.mp h with ⟨hy, hys⟩
    by_cases hc : x.2 ≥ y.2
    · simp only [hc, if_true]
      refine List.pairwise_cons.mpr ⟨?_, h⟩
      intro z hz
      rcases List.mem_cons.mp hz with hz | hz
      · subst hz; omega
      · have := hy z hz; omega
    · simp only [hc, if_false]
      refine List.pairwise_cons.mpr ⟨?_, ih hys⟩
      intro z hz
      have hz' := (insertDesc_perm x ys).mem_iff.mp hz
      rcases List.mem_cons.mp hz' with hz' | hz'
      · subst hz'; omega
      · exact hy z hz'

theorem sortByBytesDesc_pairwise (l : List (String × Nat)) :
    List.Pairwise (fun a b : String × Nat => b.2 ≤ a.2) (sortByBytesDesc l) := by
  induction l with
  | nil => simp [sortByBytesDesc]
  | cons x xs ih =>
    unfold sortByBytesDesc
    exact insertDesc_pairwise x (sortByBytesDesc xs) ih

/-- Stability: two equal-sized elements that occur in a given order in the
input occur in the same order in the sorted output. -/
theorem sortByBytesDesc_stable (l : List (String × Nat)) (a b : String × Nat)
    (hab : a.2 = b.2) (h : List.Sublist [a, b] l) :
    List.Sublist [a, b] (sortByBytesDesc l) := by
  induction l with
  | nil => cases h
  | cons x xs ih =>
    unfold sortByBytesDesc
    cases h with
    | cons _ htail =>
      exact (ih htail).trans (sublist_insertDesc x (sortByBytesDesc xs))
    | cons₂ _ htail =>
      obtain ⟨l₁, l₂, h1, h2, h3⟩ := insertDesc_decomp a (sortByBytesDesc xs)
      rw [h2]
      have hb : b ∈ l₂ := by
        have hbmem : b ∈ sortByBytesDesc xs :=
          (sortByBytesDesc_perm xs).symm.subset (List.singleton_sublist.mp htail)
        rw [h1] at hbmem
        rcases List.mem_append.mp hbmem with hmem | hmem
        · exact absurd (h3 b hmem) (by omega)
        · exact hmem
      have hxb : List.Sublist [a, b] (a :: l₂) :=
        (List.singleton_sublist.mpr hb).cons₂ a
      exact hxb.trans (List.sublist_append_right l₁ (a :: l₂))

/-! ## Helper lemmas: flat rendering vs structured records -/

/-- On the success path of one dispatched file, the flat walker's display
string equals the rendering of the structured walker's record. -/
theorem flat_render_eq (parsed : ParseResult) (relPath : String) (size : Nat)
    (hfile : parsed.file ≠ "") (hrel : relPath ≠ "") :
    flatSummaryString relPath parsed =
      renderRecord (_summarize_file parsed relPath size) := by
  unfold flatSummaryString renderRecord _summarize_file
  cases parsed.skipped with
  | some s => simp [hfile, hrel]
  | none =>
    cases parsed.error with
    | some e => simp [hfile, hrel]
    | none => simp [hfile, hrel]

/-- Pointwise correspondence of the two walkers on one entry, provided the
entry's `stat` cannot raise and its paths are non-empty (as holds for every
real `rglob` result strictly under the repository root). -/
theorem entryString_eq_render (e : Entry)
    (hstat : e.statRaises = false) (hpath : e.path ≠ "") (hrel : e.relPath ≠ "") :
    entryString e = (entryRecord e).map renderRecord := by
  unfold entryString entryRecord entryRaises
  cases h1 : eligible e
  · simp
  · simp only [hstat, Bool.false_or, Bool.true_and, Bool.and_true]
    cases hd : dispatchExtractor (detect_language e.ext) e.path e.src with
    | none => cases h2 : e.relRaises <;> simp
    | some parsed =>
      have hfile : parsed.file = e.path := (dispatchExtractor_spec _ _ _ _ hd).2.1
      cases h2 : e.relRaises
      · simp only [Bool.not_false, if_true, Bool.and_false, if_false, Option.map_some]
        rw [if_neg (by simp [hfile, hpath])]
        have : (if parsed.file ≠ "" then e.relPath else "Unknown File") = e.relPath := by
          simp [hfile, hpath]
        rw [this]
        exact congrArg some (flat_render_eq parsed e.relPath e.size (by simp [hfile, hpath]) hrel)
      · simp [hfile, hpath]

/-- The structured walk, restated entry-wise: its records are `recordsOf`
the considered entries, `total_considered` is their number, the counters sum
to `total_considered + raisedCount`, and `largest_files` is the sorted,
truncated candidate pool. -/
theorem parse_repo_ast_structured_spec (entries : List Entry) (max_files : Nat) :
    (parse_repo_ast_structured entries max_files).files
      = recordsOf (entries.take max_files) ∧
    (parse_repo_ast_structured entries max_files).stats.total_considered
      = (recordsOf (entries.take max_files)).length ∧
    (parse_repo_ast_structured entries max_files).stats.scanned +
        (parse_repo_ast_structured entries max_files).stats.skipped +
        (parse_repo_ast_structured entries max_files).stats.errors
      = (recordsOf (entries.take max_files)).length + raisedCount (entries.take max_files) ∧
    (parse_repo_ast_structured entries max_files).stats.largest_files
      = (sortByBytesDesc (poolOf (entries.take max_files))).take 5 := by
  obtain ⟨hf, hl, hc⟩ := structured_fold (entries.take max_files) initWalkState
  have hf2 : (List.foldl structuredStep initWalkState (entries.take max_files)).files
      = recordsOf (entries.take max_files) := by simpa [initWalkState] using hf
  have hl2 : (List.foldl structuredStep initWalkState (entries.take max_files)).largest_files
      = poolOf (entries.take max_files) := by simpa [initWalkState] using hl
  have hc2 : (List.foldl structuredStep initWalkState (entries.take max_files)).scanned +
        (List.foldl structuredStep initWalkState (entries.take max_files)).skipped +
        (List.foldl structuredStep initWalkState (entries.take max_files)).errors
      = (recordsOf (entries.take max_files)).length + raisedCount (entries.take max_files) := by
    simpa [initWalkState] using hc
  unfold parse_repo_ast_structured
  simp only [hf2, hl2]
  refine ⟨trivial, trivial, by simpa using hc2, trivial⟩

/-! ## Claims -/

/-- C1, counterexample: in a walk whose only entry is an eligible Python
file whose `stat` call raises, the `except` branch increments `errors` but
appends no record, so `scanned + skipped + errors = 1` while
`total_considered = len(files) = 0` — the claimed invariant fails for walks
with a raising per-file processing step. -/
theorem C1_counterexample :
    (parse_repo_ast_structured [statFailEntry] 300).stats.scanned +
        (parse_repo_ast_structured [statFailEntry] 300).stats.skipped +
        (parse_repo_ast_structured [statFailEntry] 300).stats.errors ≠
      (parse_repo_ast_structured [statFailEntry] 300).stats.total_considered := by
  decide

/-- C1, amended: for every walk,
`scanned + skipped + errors = total_considered + (number of considered
entries whose per-file processing step raised)`, and
`total_considered = len(files)`; in particular the claimed invariant
`scanned + skipped + errors = total_considered = len(files)` holds exactly
for walks in which no per-file processing step raises. -/
theorem C1_amended (entries : List Entry) (max_files : Nat) :
    (parse_repo_ast_structured entries max_files).stats.scanned +
        (parse_repo_ast_structured entries max_files).stats.skipped +
        (parse_repo_ast_structured entries max_files).stats.errors
      = (parse_repo_ast_structured entries max_files).stats.total_considered +
        raisedCount (entries.take max_files) ∧
    (parse_repo_ast_structured entries max_files).stats.total_considered =
      (parse_repo_ast_structured entries max_files).files.length ∧
    (raisedCount (entries.take max_files) = 0 →
      (parse_repo_ast_structured entries max_files).stats.scanned +
          (parse_repo_ast_structured entries max_files).stats.skipped +
          (parse_repo_ast_structured entries max_files).stats.errors
        = (parse_repo_ast_structured entries max_files).stats.total_considered) := by
  obtain ⟨hfiles, htc, hsum, _⟩ := parse_repo_ast_structured_spec entries max_files
  refine ⟨by omega, ?_, fun h0 => by omega⟩
  rw [htc, hfiles]

theorem C1_amended_witness :
    raisedCount ([jsEntry, goEntry, bigJavaEntry].take 300) = 0 ∧
    (parse_repo_ast_structured [jsEntry, goEntry, bigJavaEntry] 300).stats.scanned +
        (parse_repo_ast_structured [jsEntry, goEntry, bigJavaEntry] 300).stats.skipped +
        (parse_repo_ast_structured [jsEntry, goEntry, bigJavaEntry] 300).stats.errors
      = (parse_repo_ast_structured [jsEntry, goEntry, bigJavaEntry] 300).stats.total_considered :=
  ⟨by decide, (C1_amended [jsEntry, goEntry, bigJavaEntry] 300).2.2 (by decide)⟩

/-- C2, counterexample: a walk whose only entry is a `.go` file.  The
`largest_files` pair is appended before language dispatch, so the file
enters the candidate pool although no extractor exists for Go and no
FileRecord is produced: `largest_files` has length `1`, while
`min 5 total_considered = 0`. -/
theorem C2_counterexample :
    (parse_repo_ast_structured [goEntry] 300).stats.largest_files.length ≠
      min 5 (parse_repo_ast_structured [goEntry] 300).stats.total_considered := by
  decide

/-- C2, amended: `largest_files` equals the first 5 elements of the stable
descending sort (by size) of the candidate pool — one pair per eligible
entry whose `stat` and `relative_to` succeed, including files that produce
no FileRecord.  Hence its length is `min 5 (pool length)`, it is sorted by
size descending, the sort is a permutation of the pool, and equal sizes
keep first-encountered walk order. -/
theorem C2_amended (entries : List Entry) (max_files : Nat) :
    (parse_repo_ast_structured entries max_files).stats.largest_files
      = (sortByBytesDesc (poolOf (entries.take max_files))).take 5 ∧
    (parse_repo_ast_structured entries max_files).stats.largest_files.length
      = min 5 (poolOf (entries.take max_files)).length ∧
    List.Pairwise (fun a b : String × Nat => b.2 ≤ a.2)
      (parse_repo_ast_structured entries max_files).stats.largest_files ∧
    List.Perm (sortByBytesDesc (poolOf (entries.take max_files)))
      (poolOf (entries.take max_files)) ∧
    (∀ a b : String × Nat, a.2 = b.2 →
      List.Sublist [a, b] (poolOf (entries.take max_files)) →
      List.Sublist [a, b] (sortByBytesDesc (poolOf (entries.take max_files)))) := by
  obtain ⟨_, hl, _⟩ := structured_fold (entries.take max_files) initWalkState
  have heq : (parse_repo_ast_structured entries max_files).stats.largest_files
      = (sortByBytesDesc (poolOf (entries.take max_files))).take 5 := by
    unfold parse_repo_ast_structured
    simp only []
    rw [hl]
    simp [initWalkState]
  refine ⟨heq, ?_, ?_, sortByBytesDesc_perm _, fun a b hab hsub =>
    sortByBytesDesc_stable _ a b hab hsub⟩
  · rw [heq]
    simp [List.length_take, (sortByBytesDesc_perm (poolOf (entries.take max_files))).length_eq]
  · rw [heq]
    exact (sortByBytesDesc_pairwise _).sublist (List.take_sublist 5 _)

theorem C2_amended_witness :
    (parse_repo_ast_structured [tieEntryA, tieEntryB] 300).stats.largest_files
      = (sortByBytesDesc (poolOf ([tieEntryA, tieEntryB].take 300))).take 5 ∧
    (("a.js", 7) : String × Nat).2 = (("b.js", 7) : String × Nat).2 ∧
    List.Sublist [(("a.js", 7) : String × Nat), ("b.js", 7)]
      (poolOf ([tieEntryA, tieEntryB].take 300)) ∧
    List.Sublist [(("a.js", 7) : String × Nat), ("b.js", 7)]
      (sortByBytesDesc (poolOf ([tieEntryA, tieEntryB].take 300))) := by
  have hpool : poolOf ([tieEntryA, tieEntryB].take 300) = [("a.js", 7), ("b.js", 7)] := by
    decide
  have hsub : List.Sublist [(("a.js", 7) : String × Nat), ("b.js", 7)]
      (poolOf ([tieEntryA, tieEntryB].take 300)) := by
    rw [hpool]
  exact ⟨(C2_amended [tieEntryA, tieEntryB] 300).1, rfl, hsub,
    (C2_amended [tieEntryA, tieEntryB] 300).2.2.2.2 _ _ rfl hsub⟩

/-- C3, counterexample: on an eligible Python entry whose `stat` raises,
the structured walker produces no record (its `except` branch fires before
dispatch), but the flat walker — which never calls `stat` — still produces
a display string: the two modes do not visit files identically. -/
theorem C3_counterexample :
    parse_repo_ast [statFailEntry] 300 ≠
      (parse_repo_ast_structured [statFailEntry] 300).files.map renderRecord := by
  decide

/-- C3, amended: for every walk in which no considered entry's `stat` call
raises (and entry paths are non-empty, as for every real `rglob` result),
the flat mode yields exactly one display string per FileRecord of the
structured mode, in the same order: it is the `renderRecord` projection of
the structured walk. -/
theorem C3_amended (entries : List Entry) (max_files : Nat)
    (h : ∀ e ∈ entries.take max_files,
      e.statRaises = false ∧ e.path ≠ "" ∧ e.relPath ≠ "") :
    parse_repo_ast entries max_files =
      (parse_repo_ast_structured entries max_files).files.map renderRecord := by
  unfold parse_repo_ast parse_repo_ast_structured
  simp only []
  rw [flat_fold, (structured_fold (entries.take max_files) initWalkState).1]
  simp only [initWalkState, List.nil_append]
  unfold stringsOf recordsOf
  rw [List.map_filterMap]
  apply List.filterMap_congr
  intro e he
  obtain ⟨h1, h2, h3⟩ := h e he
  exact entryString_eq_render e h1 h2 h3

theorem C3_amended_witness :
    (∀ e ∈ [jsEntry, goEntry, bigJavaEntry].take 300,
      e.statRaises = false ∧ e.path ≠ "" ∧ e.relPath ≠ "") ∧
    parse_repo_ast [jsEntry, goEntry, bigJavaEntry] 300 =
      (parse_repo_ast_structured [jsEntry, goEntry, bigJavaEntry] 300).files.map renderRecord :=
  ⟨by decide, C3_amended [jsEntry, goEntry, bigJavaEntry] 300 (by decide)⟩

/-- C4, counterexample: the `max_files` parameter of both walkers defaults
to `300` (ast_parser.py lines 138 and 203), not to the configuration's
`DEFAULT_MAX_FILES = 200`, which `ast_parser.py` never imports. -/
theorem C4_counterexample :
    parse_repo_ast_default_max_files ≠ DEFAULT_MAX_FILES ∧
    parse_repo_ast_structured_default_max_files ≠ DEFAULT_MAX_FILES := by
  decide

set_option maxRecDepth 8192 in
/-- C4, amended: when the caller does not supply a files budget, both walk
modes use the hard-coded default budget of 300; in particular a walk over
201 supported files under the default budget analyses all 201 of them
(which a budget of 200 would truncate). -/
theorem C4_amended :
    parse_repo_ast_default_max_files = 300 ∧
    parse_repo_ast_structured_default_max_files = 300 ∧
    DEFAULT_MAX_FILES = 200 ∧
    (parse_repo_ast (List.replicate 201 jsEntry) parse_repo_ast_default_max_files).length
      = 201 ∧
    (parse_repo_ast_structured (List.replicate 201 jsEntry)
        parse_repo_ast_structured_default_max_files).stats.total_considered = 201 := by
  refine ⟨rfl, rfl, rfl, ?_, ?_⟩
  · rw [parse_repo_ast, flat_fold]
    decide
  · obtain ⟨hf, _, _⟩ := structured_fold
      ((List.replicate 201 jsEntry).take parse_repo_ast_structured_default_max_files)
      initWalkState
    unfold parse_repo_ast_structured
    simp only []
    rw [hf]
    decide

/-- C5: every extractor variant returns the `skipped("file too large
(>1MB)")` record, with no declaration lists, for a readable file whose byte
length exceeds `MAX_FILE_BYTES`; the result is a fixed record depending
only on the language tag and the echoed path, so no content is decoded or
parsed. -/
theorem C5_per_file_cap (f : String) (src : SourceFile)
    (h1 : src.readError = none) (h2 : MAX_FILE_BYTES < src.byteLen) :
    parse_python_ast f src = tooLargeRecord "python" f ∧
    parse_javascript_ast f src = tooLargeRecord "javascript" f ∧
    parse_typescript_ast f src = tooLargeRecord "typescript" f ∧
    parse_java_ast f src = tooLargeRecord "java" f := by
  unfold parse_typescript_ast parse_python_ast parse_javascript_ast parse_java_ast tooLargeRecord
  rw [h1]
  simp [h2]

theorem C5_witness :
    bigSource.readError = none ∧ MAX_FILE_BYTES < bigSource.byteLen ∧
    parse_python_ast "big.py" bigSource = tooLargeRecord "python" "big.py" ∧
    parse_java_ast "Big.java" bigSource = tooLargeRecord "java" "Big.java" :=
  ⟨rfl, by decide, (C5_per_file_cap "big.py" bigSource rfl (by decide)).1,
    (C5_per_file_cap "Big.java" bigSource rfl (by decide)).2.2.2⟩

/-- C6: every FileRecord of a structured walk is in exactly one of the
three states — no diagnostic (successful declarations), `skipped` set, or
`error` set; the two diagnostics are never both set, and a diagnostic
record carries no declaration names. -/
theorem C6_record_states (entries : List Entry) (max_files : Nat) (r : FileRecord)
    (h : r ∈ (parse_repo_ast_structured entries max_files).files) :
    ¬(r.skipped.isSome ∧ r.error.isSome) ∧
    ((r.skipped = none ∧ r.error = none) ∨ (r.skipped.isSome ∧ r.error = none) ∨
      (r.skipped = none ∧ r.error.isSome)) ∧
    ((r.skipped.isSome ∨ r.error.isSome) →
      r.functions = [] ∧ r.classes = [] ∧ r.imports = []) := by
  rw [(parse_repo_ast_structured_spec entries max_files).1] at h
  unfold recordsOf at h
  obtain ⟨e, _, hrec⟩ := List.mem_filterMap.mp h
  unfold entryRecord at hrec
  by_cases hc : (eligible e && !entryRaises e) = true
  · rw [if_pos hc] at hrec
    obtain ⟨p, hp, hsum⟩ := Option.map_eq_some'.mp hrec
    obtain ⟨hshape, _, _⟩ := dispatchExtractor_spec _ _ _ _ hp
    subst hsum
    unfold GoodShape at hshape
    rcases hshape with ⟨hf, hcl, him, hs, herr⟩ | ⟨hf, hcl, him, hs, herr⟩ |
      ⟨hf, hcl, him, hs, herr⟩ <;>
      simp [_summarize_file, hf, hcl, him, hs, herr]
  · rw [if_neg hc] at hrec
    cases hrec

theorem C6_witness :
    bigJavaRecord ∈ (parse_repo_ast_structured [bigJavaEntry] 300).files ∧
    ¬(bigJavaRecord.skipped.isSome ∧ bigJavaRecord.error.isSome) ∧
    ((bigJavaRecord.skipped = none ∧ bigJavaRecord.error = none) ∨
      (bigJavaRecord.skipped.isSome ∧ bigJavaRecord.error = none) ∨
      (bigJavaRecord.skipped = none ∧ bigJavaRecord.error.isSome)) ∧
    ((bigJavaRecord.skipped.isSome ∨ bigJavaRecord.error.isSome) →
      bigJavaRecord.functions = [] ∧ bigJavaRecord.classes = [] ∧
        bigJavaRecord.imports = []) :=
  ⟨by decide, C6_record_states [bigJavaEntry] 300 bigJavaRecord (by decide)⟩

/-- C7, counterexample: `ast.walk` is breadth-first, not pre-order.  For a
module with `def outer()` containing `def inner()`, followed by
`def later()`, the extractor's list is `["outer", "later", "inner"]` while
tree pre-order gives `["outer", "inner", "later"]`. -/
theorem C7_counterexample :
    pyFunctions demoTree ≠ preorderFunctions demoTree := by
  have h1 : pyFunctions demoTree = ["outer", "later", "inner"] := by
    simp [pyFunctions, demoTree, astWalk_cons, astWalk_nil, PyNode.children,
      isFunctionDefName]
  have h2 : preorderFunctions demoTree = ["outer", "inner", "later"] := by
    simp [preorderFunctions, demoTree, preorder_eq, isFunctionDefName]
  rw [h1, h2]
  decide

/-- C7, amended: the Python extractor's lists contain the names of the
tree's function-definition, class-definition and import nodes in
breadth-first (level) order, not pre-order: the walk satisfies the
level-order unrolling equation, and its node sequence (hence each name
list) is a permutation of the pre-order traversal. -/
theorem C7_amended :
    (∀ q : List PyNode, astWalk q = q ++ astWalk (q.flatMap PyNode.children)) ∧
    (∀ t : PyNode, List.Perm (astWalk [t]) (preorder t)) ∧
    (∀ t : PyNode,
      List.Perm (pyFunctions t) (preorderFunctions t) ∧
      List.Perm (pyClasses t) (preorderClasses t) ∧
      List.Perm (pyImports t) (preorderImports t)) :=
  ⟨astWalk_round, astWalk_tree_perm,
    fun t => ⟨pyFunctions_perm t, pyClasses_perm t, pyImports_perm t⟩⟩

/-- C8: the Python extractor does not deduplicate — the multiplicity of
each name in `functions` equals its number of function definitions in the
tree (counted over the pre-order traversal); in particular a name defined
twice appears twice. -/
theorem C8_nondedup (t : PyNode) (nm : String) :
    (pyFunctions t).count nm = (preorderFunctions t).count nm ∧
    ((preorderFunctions t).count nm = 2 → (pyFunctions t).count nm = 2) := by
  have h := (pyFunctions_perm t).count_eq nm
  exact ⟨h, fun h2 => h.trans h2⟩

theorem C8_witness :
    (preorderFunctions demoDupTree).count "foo" = 2 ∧
    (pyFunctions demoDupTree).count "foo" = 2 := by
  have hpre : (preorderFunctions demoDupTree).count "foo" = 2 := by
    have hlist : preorderFunctions demoDupTree = ["foo", "foo"] := by
      simp [preorderFunctions, demoDupTree, preorder_eq, isFunctionDefName]
    rw [hlist]
    decide
  exact ⟨hpre, (C8_nondedup demoDupTree "foo").2 hpre⟩

theorem list_set_count (L : List String) (nm : String) (h : 0 < L.count nm) :
    (list_set L).count nm = 1 :=
  List.count_eq_one_of_mem (List.nodup_dedup L)
    (List.mem_dedup.mpr (List.count_pos_iff.mp h))

/-- C9: the JavaScript, TypeScript and Java extractors deduplicate — a
declared name matched at least twice by the corresponding patterns appears
exactly once in the corresponding output list. -/
theorem C9_dedup (f : String) (src : SourceFile) (nm : String)
    (h1 : src.readError = none) (h2 : ¬MAX_FILE_BYTES < src.byteLen) :
    (2 ≤ (src.jsFunctionMatches1 ++ src.jsFunctionMatches2 ++
        src.jsFunctionMatches3).count nm →
      ((parse_javascript_ast f src).functions.getD []).count nm = 1) ∧
    (2 ≤ src.jsClassMatches.count nm →
      ((parse_javascript_ast f src).classes.getD []).count nm = 1) ∧
    (2 ≤ (src.jsImportMatches1 ++ src.jsImportMatches2).count nm →
      ((parse_javascript_ast f src).imports.getD []).count nm = 1) ∧
    (2 ≤ (src.jsFunctionMatches1 ++ src.jsFunctionMatches2 ++
        src.jsFunctionMatches3).count nm →
      ((parse_typescript_ast f src).functions.getD []).count nm = 1) ∧
    (2 ≤ src.jsClassMatches.count nm →
      ((parse_typescript_ast f src).classes.getD []).count nm = 1) ∧
    (2 ≤ (src.jsImportMatches1 ++ src.jsImportMatches2).count nm →
      ((parse_typescript_ast f src).imports.getD []).count nm = 1) ∧
    (2 ≤ src.javaFunctionMatches.count nm →
      ((parse_java_ast f src).functions.getD []).count nm = 1) ∧
    (2 ≤ src.javaClassMatches.count nm →
      ((parse_java_ast f src).classes.getD []).count nm = 1) ∧
    (2 ≤ src.javaImportMatches.count nm →
      ((parse_java_ast f src).imports.getD []).count nm = 1) := by
  unfold parse_typescript_ast parse_javascript_ast parse_java_ast
  rw [h1]
  simp only [h2, if_false, Option.getD_some]
  refine ⟨fun h => list_set_count _ nm (by omega), fun h => list_set_count _ nm (by omega),
    fun h => list_set_count _ nm (by omega), fun h => list_set_count _ nm (by omega),
    fun h => list_set_count _ nm (by omega), fun h => list_set_count _ nm (by omega),
    fun h => list_set_count _ nm (by omega), fun h => list_set_count _ nm (by omega),
    fun h => list_set_count _ nm (by omega)⟩

theorem C9_witness :
    dupSource.readError = none ∧ ¬MAX_FILE_BYTES < dupSource.byteLen ∧
    2 ≤ (dupSource.jsFunctionMatches1 ++ dupSource.jsFunctionMatches2 ++
      dupSource.jsFunctionMatches3).count "foo" ∧
    ((parse_javascript_ast "d.js" dupSource).functions.getD []).count "foo" = 1 ∧
    2 ≤ dupSource.javaFunctionMatches.count "run" ∧
    ((parse_java_ast "D.java" dupSource).functions.getD []).count "run" = 1 :=
  ⟨rfl, by decide, by decide,
    (C9_dedup "d.js" dupSource "foo" rfl (by decide)).1 (by decide),
    by decide,
    (C9_dedup "D.java" dupSource "run" rfl (by decide)).2.2.2.2.2.2.1 (by decide)⟩

/-- C10: every FileRecord of a structured walk carries one of the four
extractor language tags; entries whose extension maps to any other tag
(go, rust, cpp, c, csharp) or to unknown are dispatched to no extractor
and contribute no record, so the tag "unknown" never appears in a
record. -/
theorem C10_languages (entries : List Entry) (max_files : Nat) :
    (∀ r ∈ (parse_repo_ast_structured entries max_files).files,
      r.language = "python" ∨ r.language = "javascript" ∨
        r.language = "typescript" ∨ r.language = "java") ∧
    (∀ e : Entry, detect_language e.ext = "go" ∨ detect_language e.ext = "rust" ∨
        detect_language e.ext = "cpp" ∨ detect_language e.ext = "c" ∨
        detect_language e.ext = "csharp" ∨ detect_language e.ext = "unknown" →
      entryRecord e = none) := by
  constructor
  · intro r h
    rw [(parse_repo_ast_structured_spec entries max_files).1] at h
    unfold recordsOf at h
    obtain ⟨e, _, hrec⟩ := List.mem_filterMap.mp h
    unfold entryRecord at hrec
    by_cases hc : (eligible e && !entryRaises e) = true
    · rw [if_pos hc] at hrec
      obtain ⟨p, hp, hsum⟩ := Option.map_eq_some'.mp hrec
      obtain ⟨_, _, hlang⟩ := dispatchExtractor_spec _ _ _ _ hp
      subst hsum
      simpa [_summarize_file] using hlang
    · rw [if_neg hc] at hrec
      cases hrec
  · intro e hlang
    unfold entryRecord
    by_cases hc : (eligible e && !entryRaises e) = true
    · rw [if_pos hc]
      rcases hlang with h | h | h | h | h | h <;> simp [dispatchExtractor, h]
    · rw [if_neg hc]

theorem C10_witness :
    jsRecord ∈ (parse_repo_ast_structured [jsEntry] 300).files ∧
    (jsRecord.language = "python" ∨ jsRecord.language = "javascript" ∨
      jsRecord.language = "typescript" ∨ jsRecord.language = "java") ∧
    entryRecord goEntry = none :=
  ⟨by decide, (C10_languages [jsEntry] 300).1 jsRecord (by decide),
    (C10_languages [jsEntry] 300).2 goEntry (Or.inl (by decide))⟩

end Autodocx
